import Mathlib

/-!
Shallow embedding of `src/scrape.py` (burakAydn4701/SentimentAnalysis).

The script drives a browser over a fixed list of date windows, collecting
unique tweet texts into a Python `set` until 500 are gathered, with a
stall counter and backoff pause, writing one `week<N>.json` file per
window and a `progress.json` completion map.

External effects (navigation, element scans, scrolls, sleeps, file
writes) are recorded as an explicit event trace.  The browser is
modelled as an environment supplying, per scroll iteration, the visible
tweet texts and the page height observed after the scroll.  The inner
`while` loop may diverge, so it is modelled with fuel returning
`Option`.
-/

namespace Scrape

/-- A configured date window (`{"start": ..., "end": ...}` in the source). -/
structure DateRange where
  start : String
  «end» : String
deriving Repr, DecidableEq

/-- The fixed list `date_ranges` from `src/scrape.py` lines 11-28. -/
def date_ranges : List DateRange := [
  ⟨"2024-08-09", "2024-08-15"⟩,
  ⟨"2024-08-16", "2024-08-22"⟩,
  ⟨"2024-08-23", "2024-08-29"⟩,
  ⟨"2024-08-30", "2024-09-13"⟩,
  ⟨"2024-09-14", "2024-09-19"⟩,
  ⟨"2024-09-20", "2024-09-26"⟩,
  ⟨"2024-09-27", "2024-10-03"⟩,
  ⟨"2024-10-04", "2024-10-18"⟩,
  ⟨"2024-10-19", "2024-10-24"⟩,
  ⟨"2024-10-25", "2024-10-31"⟩,
  ⟨"2024-11-01", "2024-11-07"⟩,
  ⟨"2024-11-08", "2024-11-22"⟩,
  ⟨"2024-11-23", "2024-11-28"⟩,
  ⟨"2024-11-29", "2024-12-05"⟩,
  ⟨"2024-12-06", "2024-12-12"⟩,
  ⟨"2024-12-13", "2024-12-19"⟩]

/-- JSON values as read from / written to the progress file (`json.load`). -/
inductive JVal where
  | null
  | bool (b : Bool)
  | num (n : Int)
  | str (s : String)
  | arr (l : List JVal)
  | obj (l : List (String × JVal))

/-- Python truthiness of a JSON value (`if ... and checked_ranges[date_key]`). -/
def truthy : JVal → Bool
  | .null => false
  | .bool b => b
  | .num n => n != 0
  | .str s => s != ""
  | .arr l => !l.isEmpty
  | .obj l => !l.isEmpty

/-- A Python dict holding JSON values (`checked_ranges`): insertion-ordered
association list with unique keys. -/
abbrev Dict := List (String × JVal)

/-- Dict lookup (`checked_ranges[k]` guarded by `k in checked_ranges`). -/
def dictGet (d : Dict) (k : String) : Option JVal :=
  match d with
  | [] => none
  | (k', v) :: rest => if k' = k then some v else dictGet rest k

/-- `date_key in checked_ranges and checked_ranges[date_key]` (line 53). -/
def isTruthy (o : Option JVal) : Bool :=
  match o with
  | none => false
  | some v => truthy v

/-- Dict assignment `d[k] = v`: overwrite in place if present, else append. -/
def dictSet (d : Dict) (k : String) (v : JVal) : Dict :=
  match d with
  | [] => [(k, v)]
  | (k', v') :: rest =>
    if k' = k then (k', v) :: rest else (k', v') :: dictSet rest k v

/-- `tweets.add(text)` on a Python set, observed as a duplicate-free list:
insert only if not already present (set semantics of `set.add`, line 70). -/
def pyAdd (s : List String) (x : String) : List String :=
  if x ∈ s then s else x :: s

/-- Adding every scanned element text to the set (lines 69-70). -/
def pyAddAll (s : List String) (xs : List String) : List String :=
  xs.foldl pyAdd s

/-- Observable side effects of the script. -/
inductive Event where
  | navigate (url : String)
  | scan
  | scroll
  | sleepShort
  | backoff
  | writeWeekFile (name : String) (contents : List String)
  | writeProgressFile (snapshot : Dict)

/-- Does an event write a file? -/
def isWrite : Event → Bool
  | .writeWeekFile _ _ => true
  | .writeProgressFile _ => true
  | _ => false

/-- Is the event the long backoff pause (`time.sleep(random.uniform(10, 20))`)? -/
def isBackoff : Event → Bool
  | .backoff => true
  | _ => false

/-- Is the event a page navigation (`driver.get`)? -/
def isNavigate : Event → Bool
  | .navigate _ => true
  | _ => false

/-- State carried across iterations of the `while len(tweets) < 500` loop. -/
structure LoopState where
  tweets : List String
  last_height : Nat
  scroll_attempts : Nat

/-- What the page shows in one iteration: the texts of the rendered
`tweetText` elements, and `document.body.scrollHeight` observed after the
scroll. -/
structure Obs where
  elems : List String
  newHeight : Nat

/-- One window's browser behaviour: the initial page height (line 63) and
the observation of each scroll iteration. -/
structure WindowEnv where
  initHeight : Nat
  obs : Nat → Obs

/-- One iteration of the loop body (lines 67-90): scan elements and add
their texts to the set, scroll, sleep, compare heights, maintain the
stall counter with its 3-stall backoff, and update `last_height`.
Returns the new state and the events of the iteration. -/
def collectStep (o : Obs) (s : LoopState) : LoopState × List Event :=
  let tweets := pyAddAll s.tweets o.elems
  if o.newHeight = s.last_height then
    if s.scroll_attempts + 1 ≥ 3 then
      (⟨tweets, o.newHeight, 0⟩, [.scan, .scroll, .sleepShort, .backoff])
    else
      (⟨tweets, o.newHeight, s.scroll_attempts + 1⟩, [.scan, .scroll, .sleepShort])
  else
    (⟨tweets, o.newHeight, 0⟩, [.scan, .scroll, .sleepShort])

/-- The `while len(tweets) < 500` loop (line 66), run with fuel: `none`
means the loop was still running when the fuel ran out (the source loop
has no other exit). On exit returns the final state and the trace. -/
def collectLoop (w : WindowEnv) : Nat → Nat → LoopState → Option (LoopState × List Event)
  | 0, _, _ => none
  | fuel + 1, n, s =>
    if s.tweets.length < 500 then
      (collectLoop w fuel (n + 1) (collectStep (w.obs n) s).1).map
        (fun r => (r.1, (collectStep (w.obs n) s).2 ++ r.2))
    else
      some (s, [])

/-- The progress-file key `f"{date_range['start']}_to_{date_range['end']}"`. -/
def dateKey (dr : DateRange) : String :=
  dr.start ++ "_to_" ++ dr.«end»

/-- The output file name `f"week{i+1}.json"` for 0-based index `i`. -/
def weekFile (i : Nat) : String :=
  "week" ++ toString (i + 1) ++ ".json"

/-- The search URL built on line 59. -/
def searchUrl (dr : DateRange) : String :=
  "https://twitter.com/search?q=mourinho%20lang%3Atr%20since%3A" ++ dr.start ++
    "%20until%3A" ++ dr.«end» ++ "&src=typed_query&f=live"

/-- Scraping one window that was not skipped (lines 57-99): navigate to
the search URL, run the collect loop from an empty set, write the week
file with the set's contents, mark the range checked and rewrite the
progress file. `none` when the inner loop never terminates. -/
def scrapeWindow (w : WindowEnv) (fuel : Nat) (i : Nat) (dr : DateRange) (p : Dict) :
    Option (List Event × Dict) :=
  (collectLoop w fuel 0 ⟨[], w.initHeight, 0⟩).map
    (fun se =>
      (.navigate (searchUrl dr) :: se.2 ++
        [.writeWeekFile (weekFile i) se.1.tweets,
         .writeProgressFile (dictSet p (dateKey dr) (.bool true))],
       dictSet p (dateKey dr) (.bool true)))

/-- One step of the `for i, date_range in enumerate(date_ranges)` body:
skip the window when its key is present and truthy (lines 53-55),
otherwise scrape it. -/
def processWindow (w : WindowEnv) (fuel : Nat) (i : Nat) (dr : DateRange) (p : Dict) :
    Option (List Event × Dict) :=
  if isTruthy (dictGet p (dateKey dr)) then some ([], p)
  else scrapeWindow w fuel i dr p

/-- Result of a run: the event trace and the final progress map. -/
structure RunResult where
  trace : List Event
  progress : Dict

/-- The `for` loop over the enumerated date ranges (lines 48-99). -/
def runWindows (env : Nat → WindowEnv) (fuel : Nat) :
    List (Nat × DateRange) → Dict → Option RunResult
  | [], p => some ⟨[], p⟩
  | (i, dr) :: rest, p =>
    (processWindow (env i) fuel i dr p).bind
      (fun step => (runWindows env fuel rest step.2).map
        (fun r => ⟨step.1 ++ r.trace, r.progress⟩))

/-- The whole of `scrape_tweets` (lines 30-102): load the progress map
when the progress file exists (empty otherwise), open the login page,
then process every configured window. `progressContent` is what
`json.load` would return for the progress file. -/
def scrape_tweets (progressExists : Bool) (progressContent : Dict)
    (env : Nat → WindowEnv) (fuel : Nat) : Option RunResult :=
  let checked_ranges := if progressExists then progressContent else []
  (runWindows env fuel date_ranges.enum checked_ranges).map
    (fun r => ⟨.navigate "https://twitter.com/login" :: r.trace, r.progress⟩)

/-! ### Unfolding lemmas for the fuelled loop -/

theorem collectLoop_zero (w : WindowEnv) (n : Nat) (s : LoopState) :
    collectLoop w 0 n s = none := rfl

theorem collectLoop_succ (w : WindowEnv) (fuel n : Nat) (s : LoopState) :
    collectLoop w (fuel + 1) n s =
      if s.tweets.length < 500 then
        (collectLoop w fuel (n + 1) (collectStep (w.obs n) s).1).map
          (fun r => (r.1, (collectStep (w.obs n) s).2 ++ r.2))
      else
        some (s, []) := rfl

/-! ### Basic lemmas about the set model -/

theorem pyAdd_of_mem {s : List String} {x : String} (h : x ∈ s) :
    pyAdd s x = s := by
  simp [pyAdd, h]

theorem pyAdd_of_not_mem {s : List String} {x : String} (h : x ∉ s) :
    pyAdd s x = x :: s := by
  simp [pyAdd, h]

theorem pyAdd_nodup {s : List String} (h : s.Nodup) (x : String) :
    (pyAdd s x).Nodup := by
  by_cases hx : x ∈ s
  · rw [pyAdd_of_mem hx]; exact h
  · rw [pyAdd_of_not_mem hx]; exact List.nodup_cons.2 ⟨hx, h⟩

theorem pyAddAll_nodup {s : List String} (h : s.Nodup) (xs : List String) :
    (pyAddAll s xs).Nodup := by
  induction xs generalizing s with
  | nil => exact h
  | cons x xs ih => exact ih (pyAdd_nodup h x)

theorem pyAdd_subset {T s : List String} {x : String} (hs : s ⊆ T) (hx : x ∈ T) :
    pyAdd s x ⊆ T := by
  by_cases hm : x ∈ s
  · rw [pyAdd_of_mem hm]; exact hs
  · rw [pyAdd_of_not_mem hm]; exact List.cons_subset.2 ⟨hx, hs⟩

theorem pyAddAll_subset {T s xs : List String} (hs : s ⊆ T) (hxs : xs ⊆ T) :
    pyAddAll s xs ⊆ T := by
  induction xs generalizing s with
  | nil => exact hs
  | cons x xs ih =>
    have hx : x ∈ T := hxs (List.mem_cons_self x xs)
    exact ih (pyAdd_subset hs hx) (fun y hy => hxs (List.mem_cons_of_mem x hy))

/-- A duplicate-free list contained in `T` is no longer than `T`. -/
theorem nodup_subset_length_le {l T : List String} (hn : l.Nodup) (hsub : l ⊆ T) :
    l.length ≤ T.length :=
  (List.subperm_of_subset hn hsub).length_le

/-- Adding a duplicate-free batch of fresh texts grows the set by the batch
length. -/
theorem pyAddAll_length {xs : List String} (hx : xs.Nodup) :
    ∀ s : List String, (∀ x ∈ xs, x ∉ s) →
      (pyAddAll s xs).length = s.length + xs.length := by
  induction xs with
  | nil => intro s _; simp [pyAddAll]
  | cons x xs ih =>
    intro s hd
    have hxs : x ∉ s := hd x (List.mem_cons_self x xs)
    have hnx : xs.Nodup := (List.nodup_cons.1 hx).2
    have hstep : pyAdd s x = x :: s := pyAdd_of_not_mem hxs
    have : pyAddAll s (x :: xs) = pyAddAll (x :: s) xs := by
      simp [pyAddAll, hstep]
    rw [this, ih hnx (x :: s) ?fresh]
    · simp [List.length_cons]; omega
    case fresh =>
      intro y hy
      simp only [List.mem_cons]
      push_neg
      refine ⟨?_, hd y (List.mem_cons_of_mem x hy)⟩
      rintro rfl
      exact (List.nodup_cons.1 hx).1 hy

/-! ### Structural lemmas about one iteration and the loop -/

theorem collectStep_tweets (o : Obs) (s : LoopState) :
    (collectStep o s).1.tweets = pyAddAll s.tweets o.elems := by
  unfold collectStep
  split <;> [split <;> rfl; rfl]

theorem collectStep_height (o : Obs) (s : LoopState) :
    (collectStep o s).1.last_height = o.newHeight := by
  unfold collectStep
  split <;> [split <;> rfl; rfl]

/-- The events of a loop iteration: never a file write, never a navigation. -/
theorem collectStep_evs (o : Obs) (s : LoopState) :
    ∀ e ∈ (collectStep o s).2, isWrite e = false ∧ isNavigate e = false := by
  intro e he
  unfold collectStep at he
  split at he
  · split at he <;> simp only [List.mem_cons, List.not_mem_nil, or_false] at he <;>
      rcases he with rfl | rfl | rfl | rfl <;> exact ⟨rfl, rfl⟩
  · simp only [List.mem_cons, List.not_mem_nil, or_false] at he
    rcases he with rfl | rfl | rfl <;> exact ⟨rfl, rfl⟩

/-- When the loop exits, the size check has seen at least 500 unique texts. -/
theorem collectLoop_some_ge (w : WindowEnv) :
    ∀ (fuel n : Nat) (s : LoopState) (r : LoopState × List Event),
      collectLoop w fuel n s = some r → 500 ≤ r.1.tweets.length := by
  intro fuel
  induction fuel with
  | zero => intro n s r h; simp [collectLoop_zero] at h
  | succ fuel ih =>
    intro n s r h
    rw [collectLoop_succ] at h
    by_cases hlt : s.tweets.length < 500
    · rw [if_pos hlt] at h
      rcases Option.map_eq_some'.1 h with ⟨r', hr', hmap⟩
      have := ih (n + 1) _ r' hr'
      rw [← hmap]
      exact this
    · rw [if_neg hlt] at h
      cases h
      dsimp only
      omega

/-- The loop's own trace never writes a file and never navigates. -/
theorem collectLoop_evs (w : WindowEnv) :
    ∀ (fuel n : Nat) (s : LoopState) (r : LoopState × List Event),
      collectLoop w fuel n s = some r →
      ∀ e ∈ r.2, isWrite e = false ∧ isNavigate e = false := by
  intro fuel
  induction fuel with
  | zero => intro n s r h; simp [collectLoop_zero] at h
  | succ fuel ih =>
    intro n s r h e he
    rw [collectLoop_succ] at h
    by_cases hlt : s.tweets.length < 500
    · rw [if_pos hlt] at h
      rcases Option.map_eq_some'.1 h with ⟨r', hr', hmap⟩
      rw [← hmap] at he
      rcases List.mem_append.1 he with hm | hm
      · exact collectStep_evs _ _ e hm
      · exact ih (n + 1) _ r' hr' e hm
    · rw [if_neg hlt] at h
      cases h
      simp at he

/-- The collected set stays duplicate-free through the loop. -/
theorem collectLoop_nodup (w : WindowEnv) :
    ∀ (fuel n : Nat) (s : LoopState) (r : LoopState × List Event),
      collectLoop w fuel n s = some r → s.tweets.Nodup → r.1.tweets.Nodup := by
  intro fuel
  induction fuel with
  | zero => intro n s r h; simp [collectLoop_zero] at h
  | succ fuel ih =>
    intro n s r h hnd
    rw [collectLoop_succ] at h
    by_cases hlt : s.tweets.length < 500
    · rw [if_pos hlt] at h
      rcases Option.map_eq_some'.1 h with ⟨r', hr', hmap⟩
      have hstep : (collectStep (w.obs n) s).1.tweets.Nodup := by
        rw [collectStep_tweets]
        exact pyAddAll_nodup hnd _
      have := ih (n + 1) _ r' hr' hstep
      rw [← hmap]
      exact this
    · rw [if_neg hlt] at h
      cases h
      exact hnd

/-- If every scan draws from a pool `T` of fewer than 500 texts, the size
check never passes and the loop runs out of any amount of fuel. -/
theorem collectLoop_none_of_bounded (w : WindowEnv) (T : List String)
    (hT : T.length < 500) (hobs : ∀ n, (w.obs n).elems ⊆ T) :
    ∀ (fuel n : Nat) (s : LoopState), s.tweets.Nodup → s.tweets ⊆ T →
      collectLoop w fuel n s = none := by
  intro fuel
  induction fuel with
  | zero => intro n s _ _; exact collectLoop_zero w n s
  | succ fuel ih =>
    intro n s hnd hsub
    rw [collectLoop_succ]
    have hlt : s.tweets.length < 500 :=
      lt_of_le_of_lt (nodup_subset_length_le hnd hsub) hT
    rw [if_pos hlt]
    have h1 : (collectStep (w.obs n) s).1.tweets.Nodup := by
      rw [collectStep_tweets]; exact pyAddAll_nodup hnd _
    have h2 : (collectStep (w.obs n) s).1.tweets ⊆ T := by
      rw [collectStep_tweets]; exact pyAddAll_subset hsub (hobs n)
    rw [ih (n + 1) _ h1 h2]
    rfl

/-! ### Dict lemmas -/

theorem dictGet_dictSet_self (p : Dict) (k : String) (v : JVal) :
    dictGet (dictSet p k v) k = some v := by
  induction p with
  | nil => simp [dictSet, dictGet]
  | cons hd tl ih =>
    obtain ⟨k', v'⟩ := hd
    by_cases h : k' = k
    · subst h; simp [dictSet, dictGet]
    · simp [dictSet, dictGet, h, ih]

theorem dictGet_dictSet_ne (p : Dict) {k k' : String} (h : k' ≠ k) (v : JVal) :
    dictGet (dictSet p k v) k' = dictGet p k' := by
  have hne : ∀ a : String, a = k → ¬(a = k') := by
    rintro a rfl hh
    exact h hh.symm
  induction p with
  | nil => simp [dictSet, dictGet, hne k rfl]
  | cons hd tl ih =>
    obtain ⟨k₀, v₀⟩ := hd
    by_cases h0 : k₀ = k
    · subst h0
      simp [dictSet, dictGet, hne k₀ rfl]
    · simp [dictSet, dictGet, h0, ih]

/-! ### Unfolding lemmas for one window and the outer loop -/

theorem processWindow_skip {p : Dict} {dr : DateRange}
    (w : WindowEnv) (fuel i : Nat)
    (h : isTruthy (dictGet p (dateKey dr)) = true) :
    processWindow w fuel i dr p = some ([], p) := by
  simp [processWindow, h]

theorem processWindow_scrape {p : Dict} {dr : DateRange}
    (w : WindowEnv) (fuel i : Nat)
    (h : isTruthy (dictGet p (dateKey dr)) = false) :
    processWindow w fuel i dr p = scrapeWindow w fuel i dr p := by
  simp [processWindow, h]

theorem scrapeWindow_none {w : WindowEnv} {fuel : Nat}
    (i : Nat) (dr : DateRange) (p : Dict)
    (h : collectLoop w fuel 0 ⟨[], w.initHeight, 0⟩ = none) :
    scrapeWindow w fuel i dr p = none := by
  unfold scrapeWindow
  rw [h]
  rfl

theorem scrapeWindow_some {w : WindowEnv} {fuel : Nat} {s : LoopState}
    {evs : List Event} (i : Nat) (dr : DateRange) (p : Dict)
    (h : collectLoop w fuel 0 ⟨[], w.initHeight, 0⟩ = some (s, evs)) :
    scrapeWindow w fuel i dr p =
      some (.navigate (searchUrl dr) :: evs ++
        [.writeWeekFile (weekFile i) s.tweets,
         .writeProgressFile (dictSet p (dateKey dr) (.bool true))],
       dictSet p (dateKey dr) (.bool true)) := by
  unfold scrapeWindow
  rw [h]
  rfl

theorem runWindows_nil (env : Nat → WindowEnv) (fuel : Nat) (p : Dict) :
    runWindows env fuel [] p = some ⟨[], p⟩ := rfl

theorem runWindows_cons (env : Nat → WindowEnv) (fuel i : Nat) (dr : DateRange)
    (rest : List (Nat × DateRange)) (p : Dict) :
    runWindows env fuel ((i, dr) :: rest) p =
      (processWindow (env i) fuel i dr p).bind
        (fun step => (runWindows env fuel rest step.2).map
          (fun r => ⟨step.1 ++ r.trace, r.progress⟩)) := rfl

/-- Completing a window only adds completion marks: a key that is truthy
going into a window is truthy after it. -/
theorem processWindow_preserves_truthy {w : WindowEnv} {fuel i : Nat}
    {dr : DateRange} {p : Dict} {st : List Event × Dict} {k : String}
    (hk : isTruthy (dictGet p k) = true)
    (h : processWindow w fuel i dr p = some st) :
    isTruthy (dictGet st.2 k) = true := by
  by_cases hskip : isTruthy (dictGet p (dateKey dr)) = true
  · rw [processWindow_skip w fuel i hskip] at h
    cases h
    exact hk
  · rw [processWindow_scrape w fuel i (by simpa using hskip)] at h
    unfold scrapeWindow at h
    rcases Option.map_eq_some'.1 h with ⟨se, _, hst⟩
    rw [← hst]
    by_cases hkk : k = dateKey dr
    · subst hkk
      rw [dictGet_dictSet_self]
      rfl
    · rw [dictGet_dictSet_ne _ hkk]
      exact hk

/-- Truthy keys survive the whole remaining run. -/
theorem runWindows_preserves_truthy (env : Nat → WindowEnv) (fuel : Nat) :
    ∀ (ws : List (Nat × DateRange)) (p : Dict) (r : RunResult) (k : String),
      isTruthy (dictGet p k) = true → runWindows env fuel ws p = some r →
      isTruthy (dictGet r.progress k) = true := by
  intro ws
  induction ws with
  | nil =>
    intro p r k hk h
    rw [runWindows_nil] at h
    cases h
    exact hk
  | cons hd rest ih =>
    obtain ⟨i, dr⟩ := hd
    intro p r k hk h
    rw [runWindows_cons] at h
    rcases Option.bind_eq_some.1 h with ⟨step, hstep, hrest⟩
    rcases Option.map_eq_some'.1 hrest with ⟨r', hr', hr⟩
    have hk' := processWindow_preserves_truthy hk hstep
    have := ih step.2 r' k hk' hr'
    rw [← hr]
    exact this

/-- If every window's collect loop succeeds on the given fuel, the whole
run returns a result. -/
theorem runWindows_total (env : Nat → WindowEnv) (fuel : Nat)
    (hloop : ∀ i, collectLoop (env i) fuel 0 ⟨[], (env i).initHeight, 0⟩ ≠ none) :
    ∀ (ws : List (Nat × DateRange)) (p : Dict),
      ∃ r, runWindows env fuel ws p = some r := by
  intro ws
  induction ws with
  | nil => intro p; exact ⟨⟨[], p⟩, rfl⟩
  | cons hd rest ih =>
    obtain ⟨i, dr⟩ := hd
    intro p
    by_cases hskip : isTruthy (dictGet p (dateKey dr)) = true
    · obtain ⟨r', hr'⟩ := ih p
      refine ⟨⟨[] ++ r'.trace, r'.progress⟩, ?_⟩
      rw [runWindows_cons, processWindow_skip (env i) fuel i hskip]
      simp [hr']
    · cases hcl : collectLoop (env i) fuel 0 ⟨[], (env i).initHeight, 0⟩ with
      | none => exact absurd hcl (hloop i)
      | some se =>
        obtain ⟨s, evs⟩ := se
        obtain ⟨r', hr'⟩ := ih (dictSet p (dateKey dr) (.bool true))
        refine ⟨⟨(.navigate (searchUrl dr) :: evs ++
          [.writeWeekFile (weekFile i) s.tweets,
           .writeProgressFile (dictSet p (dateKey dr) (.bool true))]) ++ r'.trace,
          r'.progress⟩, ?_⟩
        rw [runWindows_cons, processWindow_scrape (env i) fuel i (by simpa using hskip),
          scrapeWindow_some i dr p hcl]
        simp [hr']

/-- A scraped (non-skipped, completed) window navigates exactly once. -/
theorem scrapeWindow_navCount {w : WindowEnv} {fuel i : Nat} {dr : DateRange}
    {p : Dict} {st : List Event × Dict}
    (h : scrapeWindow w fuel i dr p = some st) :
    st.1.countP isNavigate = 1 := by
  unfold scrapeWindow at h
  rcases Option.map_eq_some'.1 h with ⟨se, hse, hst⟩
  rw [← hst]
  have hz : se.2.countP isNavigate = 0 := by
    rw [List.countP_eq_zero]
    intro e he
    simp [(collectLoop_evs w fuel 0 _ se (by rw [hse]) e he).2]
  simp [List.countP_cons, List.countP_append, hz, isNavigate]

/-- A run over windows none of which is initially marked complete, with
pairwise distinct keys, navigates exactly once per window. -/
theorem runWindows_navCount (env : Nat → WindowEnv) (fuel : Nat) :
    ∀ (ws : List (Nat × DateRange)) (p : Dict) (r : RunResult),
      (ws.map fun x => dateKey x.2).Nodup →
      (∀ x ∈ ws, isTruthy (dictGet p (dateKey x.2)) = false) →
      runWindows env fuel ws p = some r →
      r.trace.countP isNavigate = ws.length := by
  intro ws
  induction ws with
  | nil =>
    intro p r _ _ h
    rw [runWindows_nil] at h
    cases h
    rfl
  | cons hd rest ih =>
    obtain ⟨i, dr⟩ := hd
    intro p r hnd hp h
    rw [runWindows_cons] at h
    rcases Option.bind_eq_some.1 h with ⟨step, hstep, hrest⟩
    rcases Option.map_eq_some'.1 hrest with ⟨r', hr', hr⟩
    have hskip : isTruthy (dictGet p (dateKey dr)) = false :=
      hp (i, dr) (List.mem_cons_self _ _)
    rw [processWindow_scrape (env i) fuel i hskip] at hstep
    have h1 : step.1.countP isNavigate = 1 := scrapeWindow_navCount hstep
    have hnd' := List.nodup_cons.1
      (show (dateKey dr :: rest.map fun x => dateKey x.2).Nodup from hnd)
    have hkey : ∀ x ∈ rest, dateKey x.2 ≠ dateKey dr := by
      intro x hx heq
      exact hnd'.1 (heq ▸ List.mem_map_of_mem (fun y => dateKey y.2) hx)
    have hstep2 : step.2 = dictSet p (dateKey dr) (.bool true) := by
      unfold scrapeWindow at hstep
      rcases Option.map_eq_some'.1 hstep with ⟨se, _, hst⟩
      rw [← hst]
    have hp' : ∀ x ∈ rest, isTruthy (dictGet step.2 (dateKey x.2)) = false := by
      intro x hx
      rw [hstep2, dictGet_dictSet_ne _ (hkey x hx)]
      exact hp x (List.mem_cons_of_mem _ hx)
    have h2 := ih step.2 r' hnd'.2 hp' hr'
    rw [← hr]
    simp [List.countP_append, h1, h2]
    omega

/-! ### A concrete page environment that yields 501 distinct texts at once -/

/-- 501 pairwise distinct one-character texts. -/
def bigList : List String :=
  (List.range 501).map (fun n => String.mk [Char.ofNat (65 + n)])

/-- A window whose first scan already shows 501 distinct texts, with the
page height changing from 0 to 1. -/
def envW : WindowEnv := ⟨0, fun _ => ⟨bigList, 1⟩⟩

/-- The same page behaviour for every window. -/
def envAll : Nat → WindowEnv := fun _ => envW

theorem char_ofNat_inj {m n : Nat} (hm : m.isValidChar) (hn : n.isValidChar)
    (h : Char.ofNat m = Char.ofNat n) : m = n := by
  have hm' : (Char.ofNat m).toNat = m := by rw [Char.ofNat, dif_pos hm]; rfl
  have hn' : (Char.ofNat n).toNat = n := by rw [Char.ofNat, dif_pos hn]; rfl
  rw [← hm', ← hn', h]

theorem bigList_nodup : bigList.Nodup := by
  refine List.Nodup.map_on ?_ (List.nodup_range 501)
  intro x hx y hy h
  rw [List.mem_range] at hx hy
  have hvx : (65 + x).isValidChar := Or.inl (by omega)
  have hvy : (65 + y).isValidChar := Or.inl (by omega)
  have hc : Char.ofNat (65 + x) = Char.ofNat (65 + y) := by
    have := congrArg String.data h
    simpa using this
  have := char_ofNat_inj hvx hvy hc
  omega

theorem bigList_length : bigList.length = 501 := by
  simp [bigList]

theorem bigL_length : (pyAddAll [] bigList).length = 501 := by
  rw [pyAddAll_length bigList_nodup [] (by simp), bigList_length]
  simp

theorem bigL_nodup : (pyAddAll [] bigList).Nodup :=
  pyAddAll_nodup List.nodup_nil bigList

/-- Symbolic evaluation of the collect loop over `envW`: a single
iteration gathers all 501 texts and the next size check exits. -/
theorem envW_loop :
    collectLoop envW 2 0 ⟨[], 0, 0⟩ =
      some (⟨pyAddAll [] bigList, 1, 0⟩, [.scan, .scroll, .sleepShort]) := by
  have h1 : ¬ ((pyAddAll ([] : List String) bigList).length < 500) := by
    rw [bigL_length]; omega
  have hstep : collectStep (envW.obs 0) ⟨[], 0, 0⟩ =
      (⟨pyAddAll [] bigList, 1, 0⟩, [.scan, .scroll, .sleepShort]) := by
    simp [collectStep, envW]
  have hinner : ∀ n, collectLoop envW 1 n ⟨pyAddAll [] bigList, 1, 0⟩ =
      some (⟨pyAddAll [] bigList, 1, 0⟩, []) := by
    intro n
    show collectLoop envW (0 + 1) n _ = _
    rw [collectLoop_succ]
    dsimp only
    rw [if_neg h1]
  show collectLoop envW (1 + 1) 0 ⟨[], 0, 0⟩ = _
  rw [collectLoop_succ]
  rw [if_pos (by decide)]
  rw [hstep]
  dsimp only
  rw [hinner]
  simp

/-- The first configured window. -/
def dr0 : DateRange := ⟨"2024-08-09", "2024-08-15"⟩

/-- A window showing nothing at all: empty scans, constant height. -/
def envEmpty : WindowEnv := ⟨0, fun _ => ⟨[], 0⟩⟩

/-- The 16 configured progress keys are pairwise distinct. -/
theorem keysNodup : (date_ranges.enum.map fun x => dateKey x.2).Nodup := by
  decide

/-! ### Claims -/

/-- C1 counterexample: the claim says the loop stops at exactly the
threshold of 500, but a page whose first scan shows 501 distinct texts
makes the loop exit with 501 collected texts — more than 500 — before
writing. -/
theorem c1_counterexample :
    (collectLoop envW 2 0 ⟨[], 0, 0⟩).map (fun r => r.1.tweets.length) =
      some 501 ∧ (501 : Nat) ≠ 500 := by
  constructor
  · rw [envW_loop]
    simp [bigL_length]
  · decide

/-- C1 (amended): the collect loop keeps iterating exactly while the size
check sees fewer than 500 unique texts, exits at the first check that
sees at least 500 (so never below 500), and at exit the collected set has
at least — but possibly more than — 500 texts, since the scan that
crosses the threshold may add several new texts in one batch. -/
theorem c1_loop_threshold :
    (∀ (w : WindowEnv) (fuel n : Nat) (s : LoopState),
       s.tweets.length < 500 →
       collectLoop w (fuel + 1) n s =
         (collectLoop w fuel (n + 1) (collectStep (w.obs n) s).1).map
           (fun r => (r.1, (collectStep (w.obs n) s).2 ++ r.2))) ∧
    (∀ (w : WindowEnv) (fuel n : Nat) (s : LoopState),
       ¬ s.tweets.length < 500 →
       collectLoop w (fuel + 1) n s = some (s, [])) ∧
    (∀ (w : WindowEnv) (fuel n : Nat) (s : LoopState)
       (r : LoopState × List Event),
       collectLoop w fuel n s = some r → 500 ≤ r.1.tweets.length) := by
  refine ⟨?_, ?_, fun w => collectLoop_some_ge w⟩
  · intro w fuel n s h
    rw [collectLoop_succ, if_pos h]
  · intro w fuel n s h
    rw [collectLoop_succ, if_neg h]

theorem c1_loop_threshold_witness :
    (⟨[], 0, 0⟩ : LoopState).tweets.length < 500 ∧
    collectLoop envW (1 + 1) 0 ⟨[], 0, 0⟩ =
      (collectLoop envW 1 (0 + 1) (collectStep (envW.obs 0) ⟨[], 0, 0⟩).1).map
        (fun r => (r.1, (collectStep (envW.obs 0) ⟨[], 0, 0⟩).2 ++ r.2)) ∧
    500 ≤ ((⟨pyAddAll [] bigList, 1, 0⟩ : LoopState),
      ([Event.scan, Event.scroll, Event.sleepShort] : List Event)).1.tweets.length :=
  ⟨by decide,
   c1_loop_threshold.1 envW 1 0 ⟨[], 0, 0⟩ (by decide),
   c1_loop_threshold.2.2 envW 2 0 ⟨[], 0, 0⟩ _ envW_loop⟩

/-- C2: a window whose key is truthy in the progress map at its turn
contributes nothing to the run — no navigation, scans, scrolls or writes,
and no progress change: the run equals the run without that window.
Moreover a key truthy at startup stays truthy at every later point, so a
window marked complete in the loaded file is skipped whenever reached. -/
theorem c2_skip_complete :
    (∀ (env : Nat → WindowEnv) (fuel i : Nat) (dr : DateRange)
       (rest : List (Nat × DateRange)) (p : Dict),
       isTruthy (dictGet p (dateKey dr)) = true →
       runWindows env fuel ((i, dr) :: rest) p = runWindows env fuel rest p) ∧
    (∀ (env : Nat → WindowEnv) (fuel : Nat) (ws : List (Nat × DateRange))
       (p : Dict) (r : RunResult) (k : String),
       isTruthy (dictGet p k) = true →
       runWindows env fuel ws p = some r →
       isTruthy (dictGet r.progress k) = true) := by
  constructor
  · intro env fuel i dr rest p h
    rw [runWindows_cons, processWindow_skip (env i) fuel i h]
    cases h' : runWindows env fuel rest p with
    | none => simp [h']
    | some r => cases r; simp [h']
  · exact fun env fuel ws p r k hk h =>
      runWindows_preserves_truthy env fuel ws p r k hk h

theorem c2_skip_complete_witness :
    isTruthy (dictGet [(dateKey dr0, JVal.bool true)] (dateKey dr0)) = true ∧
    runWindows envAll 1 [(0, dr0)] [(dateKey dr0, JVal.bool true)] =
      runWindows envAll 1 [] [(dateKey dr0, JVal.bool true)] :=
  ⟨rfl, c2_skip_complete.1 envAll 1 0 dr0 [] [(dateKey dr0, JVal.bool true)] rfl⟩

/-- C3: per iteration, a changed height zeroes the stall counter, an
unchanged height increments it, the backoff pause fires exactly when the
incremented counter reaches 3 and then the counter is reset — and the
loop's continuation is decided only by the size check, so a backoff never
terminates the loop. -/
theorem c3_stall_backoff :
    (∀ (o : Obs) (s : LoopState),
       (collectStep o s).1.scroll_attempts =
         (if o.newHeight = s.last_height then
            (if s.scroll_attempts + 1 ≥ 3 then 0 else s.scroll_attempts + 1)
          else 0) ∧
       (collectStep o s).2.countP isBackoff =
         (if o.newHeight = s.last_height ∧ s.scroll_attempts + 1 ≥ 3
          then 1 else 0)) ∧
    (∀ (w : WindowEnv) (fuel n : Nat) (s : LoopState),
       collectLoop w (fuel + 1) n s =
         if s.tweets.length < 500 then
           (collectLoop w fuel (n + 1) (collectStep (w.obs n) s).1).map
             (fun r => (r.1, (collectStep (w.obs n) s).2 ++ r.2))
         else some (s, [])) := by
  refine ⟨?_, fun w fuel n s => collectLoop_succ w fuel n s⟩
  intro o s
  by_cases h : o.newHeight = s.last_height
  · by_cases h2 : s.scroll_attempts + 1 ≥ 3
    · constructor <;> simp [collectStep, h, h2, isBackoff]
    · constructor <;> simp [collectStep, h, h2, isBackoff]
  · constructor <;> simp [collectStep, h, isBackoff]

/-- C4: the text list written to a window's output file is exactly the
collected set's contents: duplicate-free, with length equal to the
cardinality of the set of collected texts. -/
theorem c4_output_nodup (w : WindowEnv) (fuel i : Nat) (dr : DateRange)
    (p : Dict) (s : LoopState) (evs : List Event)
    (h : collectLoop w fuel 0 ⟨[], w.initHeight, 0⟩ = some (s, evs)) :
    scrapeWindow w fuel i dr p =
      some (.navigate (searchUrl dr) :: evs ++
        [.writeWeekFile (weekFile i) s.tweets,
         .writeProgressFile (dictSet p (dateKey dr) (.bool true))],
       dictSet p (dateKey dr) (.bool true)) ∧
    s.tweets.Nodup ∧ s.tweets.length = s.tweets.toFinset.card := by
  have hnd : s.tweets.Nodup :=
    collectLoop_nodup w fuel 0 _ (s, evs) h List.nodup_nil
  exact ⟨scrapeWindow_some i dr p h, hnd,
    (List.toFinset_card_of_nodup hnd).symm⟩

theorem c4_output_nodup_witness :
    collectLoop envW 2 0 ⟨[], 0, 0⟩ =
      some (⟨pyAddAll [] bigList, 1, 0⟩, [.scan, .scroll, .sleepShort]) ∧
    (⟨pyAddAll [] bigList, 1, 0⟩ : LoopState).tweets.Nodup ∧
    (⟨pyAddAll [] bigList, 1, 0⟩ : LoopState).tweets.length =
      (⟨pyAddAll [] bigList, 1, 0⟩ : LoopState).tweets.toFinset.card :=
  ⟨envW_loop,
   (c4_output_nodup envW 2 0 dr0 [] ⟨pyAddAll [] bigList, 1, 0⟩
     [.scan, .scroll, .sleepShort] envW_loop).2⟩

/-- C5: when the page can ever show only texts from a pool of fewer than
500 distinct strings, the collect loop never exits, for any number of
iterations — there is no stall-based or attempt-based exit. -/
theorem c5_no_alternate_exit (w : WindowEnv) (T : List String)
    (hT : T.length < 500) (hobs : ∀ n, (w.obs n).elems ⊆ T)
    (fuel n : Nat) (s : LoopState) (hnd : s.tweets.Nodup)
    (hsub : s.tweets ⊆ T) :
    collectLoop w fuel n s = none :=
  collectLoop_none_of_bounded w T hT hobs fuel n s hnd hsub

theorem c5_no_alternate_exit_witness :
    ([] : List String).length < 500 ∧
    collectLoop envEmpty 7 0 ⟨[], 0, 0⟩ = none :=
  ⟨by decide,
   c5_no_alternate_exit envEmpty [] (by decide)
     (fun n => by simp [envEmpty]) 7 0 ⟨[], 0, 0⟩ List.nodup_nil
     (by simp)⟩

/-- C6: on window completion the trace ends with the week-file write
followed by the progress-file write (nothing before them writes a file),
and the persisted snapshot is the full updated map, in which the window's
key is truthy — so a window marked complete in the persisted file has its
output file written earlier in the trace. -/
theorem c6_order (w : WindowEnv) (fuel i : Nat) (dr : DateRange) (p : Dict)
    (s : LoopState) (evs : List Event)
    (h : collectLoop w fuel 0 ⟨[], w.initHeight, 0⟩ = some (s, evs)) :
    ∃ pre, scrapeWindow w fuel i dr p =
      some (pre ++ [.writeWeekFile (weekFile i) s.tweets,
        .writeProgressFile (dictSet p (dateKey dr) (.bool true))],
        dictSet p (dateKey dr) (.bool true)) ∧
      (∀ e ∈ pre, isWrite e = false) ∧
      isTruthy (dictGet (dictSet p (dateKey dr) (.bool true)) (dateKey dr)) =
        true := by
  refine ⟨.navigate (searchUrl dr) :: evs, ?_, ?_, ?_⟩
  · rw [scrapeWindow_some i dr p h]
  · intro e he
    rcases List.mem_cons.1 he with rfl | hm
    · rfl
    · exact (collectLoop_evs w fuel 0 _ (s, evs) h e hm).1
  · rw [dictGet_dictSet_self]
    rfl

theorem c6_order_witness :
    collectLoop envW 2 0 ⟨[], 0, 0⟩ =
      some (⟨pyAddAll [] bigList, 1, 0⟩, [.scan, .scroll, .sleepShort]) ∧
    (∃ pre, scrapeWindow envW 2 0 dr0 [] =
      some (pre ++ [.writeWeekFile (weekFile 0)
          (⟨pyAddAll [] bigList, 1, 0⟩ : LoopState).tweets,
        .writeProgressFile (dictSet [] (dateKey dr0) (.bool true))],
        dictSet [] (dateKey dr0) (.bool true)) ∧
      (∀ e ∈ pre, isWrite e = false) ∧
      isTruthy (dictGet (dictSet [] (dateKey dr0) (.bool true)) (dateKey dr0)) =
        true) :=
  ⟨envW_loop, c6_order envW 2 0 dr0 [] ⟨pyAddAll [] bigList, 1, 0⟩
    [.scan, .scroll, .sleepShort] envW_loop⟩

/-- C7: the progress key of every configured window is the string
`start_to_end` built from its dates, its output file is `week N .json`
with N its 1-based index, and on completion the snapshot persisted to the
progress file is the entire updated map (previous entries plus the new
key set to true). -/
theorem c7_formats :
    (date_ranges.enum.map fun x => weekFile x.1) =
      ["week1.json", "week2.json", "week3.json", "week4.json",
       "week5.json", "week6.json", "week7.json", "week8.json",
       "week9.json", "week10.json", "week11.json", "week12.json",
       "week13.json", "week14.json", "week15.json", "week16.json"] ∧
    (date_ranges.enum.map fun x => dateKey x.2) =
      ["2024-08-09_to_2024-08-15", "2024-08-16_to_2024-08-22",
       "2024-08-23_to_2024-08-29", "2024-08-30_to_2024-09-13",
       "2024-09-14_to_2024-09-19", "2024-09-20_to_2024-09-26",
       "2024-09-27_to_2024-10-03", "2024-10-04_to_2024-10-18",
       "2024-10-19_to_2024-10-24", "2024-10-25_to_2024-10-31",
       "2024-11-01_to_2024-11-07", "2024-11-08_to_2024-11-22",
       "2024-11-23_to_2024-11-28", "2024-11-29_to_2024-12-05",
       "2024-12-06_to_2024-12-12", "2024-12-13_to_2024-12-19"] ∧
    (∀ (w : WindowEnv) (fuel i : Nat) (dr : DateRange) (p : Dict)
       (st : List Event × Dict),
       scrapeWindow w fuel i dr p = some st →
       st.2 = dictSet p (dateKey dr) (.bool true) ∧
       Event.writeProgressFile (dictSet p (dateKey dr) (.bool true)) ∈ st.1) := by
  refine ⟨by decide, by decide, ?_⟩
  intro w fuel i dr p st h
  unfold scrapeWindow at h
  rcases Option.map_eq_some'.1 h with ⟨se, _, hst⟩
  rw [← hst]
  exact ⟨rfl, by simp⟩

theorem c7_formats_witness :
    scrapeWindow envW 2 0 dr0 [] =
      some (.navigate (searchUrl dr0) ::
        [Event.scan, Event.scroll, Event.sleepShort] ++
        [.writeWeekFile (weekFile 0)
          (⟨pyAddAll [] bigList, 1, 0⟩ : LoopState).tweets,
         .writeProgressFile (dictSet [] (dateKey dr0) (.bool true))],
       dictSet [] (dateKey dr0) (.bool true)) ∧
    (.navigate (searchUrl dr0) ::
        [Event.scan, Event.scroll, Event.sleepShort] ++
        [.writeWeekFile (weekFile 0)
          (⟨pyAddAll [] bigList, 1, 0⟩ : LoopState).tweets,
         .writeProgressFile (dictSet [] (dateKey dr0) (.bool true))],
       dictSet [] (dateKey dr0) (.bool true)).2 =
      dictSet [] (dateKey dr0) (.bool true) ∧
    Event.writeProgressFile (dictSet [] (dateKey dr0) (.bool true)) ∈
      (.navigate (searchUrl dr0) ::
        [Event.scan, Event.scroll, Event.sleepShort] ++
        [.writeWeekFile (weekFile 0)
          (⟨pyAddAll [] bigList, 1, 0⟩ : LoopState).tweets,
         .writeProgressFile (dictSet [] (dateKey dr0) (.bool true))],
       dictSet [] (dateKey dr0) (.bool true)).1 :=
  ⟨scrapeWindow_some 0 dr0 [] envW_loop,
   (c7_formats.2.2 envW 2 0 dr0 [] _ (scrapeWindow_some 0 dr0 [] envW_loop)).1,
   (c7_formats.2.2 envW 2 0 dr0 [] _ (scrapeWindow_some 0 dr0 [] envW_loop)).2⟩

/-- C8: at startup the run uses the progress file's map when the file
exists and the empty map when it is absent; and in the absent case no
window is skipped: a completed run navigates once per configured window
(plus the login page). -/
theorem c8_startup :
    (∀ (content : Dict) (env : Nat → WindowEnv) (fuel : Nat),
       scrape_tweets true content env fuel =
         (runWindows env fuel date_ranges.enum content).map
           (fun r => ⟨.navigate "https://twitter.com/login" :: r.trace,
             r.progress⟩)) ∧
    (∀ (content : Dict) (env : Nat → WindowEnv) (fuel : Nat),
       scrape_tweets false content env fuel =
         (runWindows env fuel date_ranges.enum []).map
           (fun r => ⟨.navigate "https://twitter.com/login" :: r.trace,
             r.progress⟩)) ∧
    (∀ (content : Dict) (env : Nat → WindowEnv) (fuel : Nat) (r : RunResult),
       scrape_tweets false content env fuel = some r →
       r.trace.countP isNavigate = 1 + date_ranges.length) := by
  refine ⟨fun _ _ _ => rfl, fun _ _ _ => rfl, ?_⟩
  intro content env fuel r h
  rcases Option.map_eq_some'.1 h with ⟨r', hr', hr⟩
  have hnav := runWindows_navCount env fuel date_ranges.enum [] r' keysNodup
    (fun x hx => rfl) hr'
  rw [← hr]
  simp [List.countP_cons, hnav, isNavigate, List.enum_length]
  omega

theorem c8_startup_witness :
    ∃ r, scrape_tweets false [] envAll 2 = some r ∧
      r.trace.countP isNavigate = 1 + date_ranges.length := by
  have hloop : ∀ i,
      collectLoop (envAll i) 2 0 ⟨[], (envAll i).initHeight, 0⟩ ≠ none := by
    intro i
    show collectLoop envW 2 0 ⟨[], 0, 0⟩ ≠ none
    rw [envW_loop]
    simp
  obtain ⟨r', hr'⟩ := runWindows_total envAll 2 hloop date_ranges.enum []
  have hrun : scrape_tweets false [] envAll 2 =
      some ⟨.navigate "https://twitter.com/login" :: r'.trace, r'.progress⟩ := by
    rw [c8_startup.2.1 [] envAll 2, hr', Option.map_some']
  exact ⟨_, hrun, c8_startup.2.2 [] envAll 2 _ hrun⟩

/-- C9: a key that is present with a falsy value does not cause a skip:
the window is scraped exactly as when the key is absent — the skip needs
both presence and truthiness. -/
theorem c9_falsy_not_skipped (w : WindowEnv) (fuel i : Nat) (dr : DateRange) :
    (∀ (p : Dict) (v : JVal), dictGet p (dateKey dr) = some v →
       truthy v = false →
       processWindow w fuel i dr p = scrapeWindow w fuel i dr p) ∧
    (∀ p : Dict, dictGet p (dateKey dr) = none →
       processWindow w fuel i dr p = scrapeWindow w fuel i dr p) := by
  constructor
  · intro p v h1 h2
    exact processWindow_scrape w fuel i (by simp [isTruthy, h1, h2])
  · intro p h
    exact processWindow_scrape w fuel i (by simp [isTruthy, h])

theorem c9_falsy_not_skipped_witness :
    dictGet [(dateKey dr0, JVal.bool false)] (dateKey dr0) =
      some (JVal.bool false) ∧
    truthy (JVal.bool false) = false ∧
    processWindow envW 1 0 dr0 [(dateKey dr0, JVal.bool false)] =
      scrapeWindow envW 1 0 dr0 [(dateKey dr0, JVal.bool false)] :=
  ⟨rfl, rfl,
   (c9_falsy_not_skipped envW 1 0 dr0).1 [(dateKey dr0, JVal.bool false)]
     (JVal.bool false) rfl rfl⟩

/-- C10: after any iteration of the loop body, the stall counter is at
most 2 — it is reset in the same iteration in which it would reach 3 —
and the baseline height is updated to the newly observed height whether
or not it changed. -/
theorem c10_counter_invariant :
    ∀ (o : Obs) (s : LoopState),
      (collectStep o s).1.scroll_attempts < 3 ∧
      (collectStep o s).1.last_height = o.newHeight := by
  intro o s
  refine ⟨?_, collectStep_height o s⟩
  unfold collectStep
  split
  · split
    · dsimp only
      omega
    · dsimp only
      omega
  · dsimp only
    omega

end Scrape
